import Mathlib

/-!
Verification of the batched media-assembly pipeline implemented by the
class `BedtimeVideoCreator` in `src/bedtime_video_creator.py`.

The Python component shells out to ffmpeg and manipulates files on disk.
We embed it shallowly:

* the filesystem is modelled as the list of paths that currently exist;
* every external encoder (ffmpeg) invocation is recorded, and its
  success or failure is decided by an oracle `encOk` carried in the
  configuration (a failed invocation is modelled as creating no output
  file);
* Python exceptions become an `Except` result carrying the error and
  the state at the moment the exception propagates out of the modelled
  function;
* Python `float` durations are modelled as rationals, and the Python
  rendering `str(x)` of a number as the Lean `toString` (the exact digit
  strings play no role in any claim).
-/

/-- File paths are plain strings, as in the Python code. -/
abbrev FPath := String

/-- One element of the `images` list: the Python code receives
dictionaries and reads only their `image_path` entry. -/
structure Image where
  image_path : FPath
  deriving DecidableEq, Repr

/-- Ambient configuration of one `BedtimeVideoCreator` run: the
constructor arguments (`output_dir`, `batch_size`), the platform flag
and ffmpeg path from `config.py`, the timestamp string returned by
`get_timestamp`, and the oracle deciding which external encoder
invocations succeed. -/
structure Config where
  outputDir : FPath
  batch_size : ℕ
  isMacos : Bool
  ffmpegPath : String
  timestamp : String
  encOk : List String → Bool

/-- Observable state threaded through a run: the files on disk, the
warnings logged so far, and every encoder command handed to
`subprocess.run`. -/
structure RunState where
  files : List FPath
  warnings : List String
  encCalls : List (List String)
  deriving DecidableEq, Repr

/-- The Python exceptions raised by the component: `ValueError`,
`FileNotFoundError` and `RuntimeError`. -/
inductive PyError where
  | valueError : String → PyError
  | fileNotFoundError : String → PyError
  | runtimeError : String → PyError
  deriving DecidableEq, Repr

/-- `self.output_dir / name`. -/
def joinPath (dir name : FPath) : FPath := dir ++ "/" ++ name

/-- `Path(p).exists()` against the modelled filesystem. -/
def fsHas (fs : List FPath) (p : FPath) : Bool := fs.contains p

/-- `Path(p).unlink()`: afterwards the path no longer exists. -/
def removeFile (fs : List FPath) (p : FPath) : List FPath :=
  fs.filter (fun q => q != p)

/-- The cleanup loop
`for video in intermediate_videos: if video.exists(): video.unlink()`
(lines 312-314, 326-328 and 334-336 of the source). -/
def cleanupClips (fs : List FPath) (clips : List FPath) : List FPath :=
  clips.foldl removeFile fs

/-- `fade_duration = min(0.5, duration / 4)` (line 95). -/
def fade_duration (d : ℚ) : ℚ := min (1/2) (d / 4)

/-- The fade-in starts at `st=0` (line 98). -/
def fade_in_start (_ : ℚ) : ℚ := 0

/-- The fade-out starts at `st=duration - fade_duration` (line 99). -/
def fade_out_start (d : ℚ) : ℚ := d - fade_duration d

/-- The per-image scale part of `_create_video_filter` (lines 86-89). -/
def scale_part (i : ℕ) : String :=
  "[" ++ toString i ++ ":v]scale=1920:1080:force_original_aspect_ratio=disable," ++
    "setsar=1,fps=30[img" ++ toString i ++ "]"

/-- The per-image fade part of `_create_video_filter` (lines 97-100). -/
def fade_part (i : ℕ) (d : ℚ) : String :=
  "[img" ++ toString i ++ "]fade=t=in:st=" ++ toString (fade_in_start d) ++
    ":d=" ++ toString (fade_duration d) ++ ",fade=t=out:st=" ++
    toString (fade_out_start d) ++ ":d=" ++ toString (fade_duration d) ++
    "[faded" ++ toString i ++ "]"

/-- The `force_style=...` clause shared by the subtitle filters
(lines 114 and 235-237). -/
def force_style : String :=
  "force_style=\x27FontName=Arial,FontSize=24,PrimaryColour=&Hffffff," ++
    "OutlineColour=&H40000000,BackColour=&H40000000,Outline=2,Shadow=1,MarginV=50\x27"

/-- `_create_video_filter` (lines 71-119).  The existence test on the
subtitle path is made against the modelled filesystem `fs`. -/
def create_video_filter (fs : List FPath) (images : List Image)
    (scene_durations : List ℚ) (subtitle_path : Option FPath) : String :=
  let n := images.length
  let scaleParts := (List.range n).map scale_part
  let fadeParts := (List.range n).map (fun i => fade_part i (scene_durations.getD i 0))
  let concatPart :=
    if n > 1 then
      String.join ((List.range n).map (fun i => "[faded" ++ toString i ++ "]")) ++
        "concat=n=" ++ toString n ++ ":v=1:a=0[concat_video]"
    else
      "[faded0]copy[concat_video]"
  let subPart :=
    match subtitle_path with
    | some sp =>
        if fsHas fs sp then
          "[concat_video]subtitles=" ++ sp ++ ":" ++ force_style ++ "[video]"
        else "[concat_video]copy[video]"
    | none => "[concat_video]copy[video]"
  String.intercalate ";" (scaleParts ++ fadeParts ++ [concatPart, subPart])

/-- `_prepare_image_inputs` (lines 47-69). -/
def prepare_image_inputs (images : List Image) (scene_durations : List ℚ) :
    List String :=
  (images.zip scene_durations).flatMap
    (fun p => ["-loop", "1", "-t", toString p.2, "-i", p.1.image_path])

/-- Output path of `_create_intermediate_video` for one batch:
`intermediate_{batch_num}.mp4` under the output directory (lines 138-139). -/
def clipName (cfg : Config) (batch_num : ℕ) : FPath :=
  joinPath cfg.outputDir ("intermediate_" ++ toString batch_num ++ ".mp4")

/-- Output path of `_combine_videos`: `FILE_PATTERNS["video"]` is
`bedtime_video_{timestamp}.mp4` (lines 213-215 and `config.py`). -/
def videoName (cfg : Config) : FPath :=
  joinPath cfg.outputDir ("bedtime_video_" ++ cfg.timestamp ++ ".mp4")

/-- The concat manifest path `concat_{timestamp}.txt` (line 218). -/
def concatName (cfg : Config) : FPath :=
  joinPath cfg.outputDir ("concat_" ++ cfg.timestamp ++ ".txt")

/-- The full ffmpeg command assembled by `_create_intermediate_video`
(lines 142-178). -/
def intermediate_cmd (cfg : Config) (images : List Image)
    (scene_durations : List ℚ) (output_path : FPath) : List String :=
  [cfg.ffmpegPath, "-y"] ++ prepare_image_inputs images scene_durations ++
    ["-filter_complex", create_video_filter [] images scene_durations none] ++
    ["-map", "[video]"] ++
    (if cfg.isMacos then
      ["-c:v", "h264_videotoolbox", "-b:v", "2M", "-maxrate", "3M", "-bufsize", "6M"]
    else
      ["-c:v", "libx264", "-preset", "medium", "-crf", "23"]) ++
    ["-pix_fmt", "yuv420p", "-r", "30", "-movflags", "+faststart", output_path]

/-- `_create_intermediate_video` (lines 121-194): build the command, run
the encoder; on success the batch clip exists and its path is returned,
on failure a `RuntimeError` propagates and no output file is created. -/
def create_intermediate_video (cfg : Config) (st : RunState)
    (images : List Image) (scene_durations : List ℚ) (batch_num : ℕ) :
    Except (PyError × RunState) (RunState × FPath) :=
  let output_path := clipName cfg batch_num
  let cmd := intermediate_cmd cfg images scene_durations output_path
  let st1 : RunState := { st with encCalls := st.encCalls ++ [cmd] }
  if cfg.encOk cmd then
    .ok ({ st1 with files := st1.files ++ [output_path] }, output_path)
  else
    .error (PyError.runtimeError "Failed to create intermediate video", st1)

/-- The subtitle branch of `_combine_videos` (lines 234-242). -/
def subtitle_filter_args (cfg : Config) (sp : FPath) : List String :=
  ["-vf", "subtitles=" ++ sp ++ ":" ++ force_style,
   "-c:v", if cfg.isMacos then "h264_videotoolbox" else "libx264",
   "-b:v", "2M", "-maxrate", "3M", "-bufsize", "6M"]

/-- The guard `if subtitle_path and subtitle_path.exists()` of
`_combine_videos` (line 233), evaluated against the filesystem as it is
when the guard runs (the concat manifest has already been written). -/
def activeSubtitle (fs : List FPath) (sub : Option FPath) : Option FPath :=
  match sub with
  | some sp => if fsHas fs sp then some sp else none
  | none => none

/-- The full ffmpeg command assembled by `_combine_videos`
(lines 224-254). -/
def combine_cmd (cfg : Config) (concat_file final_audio_path : FPath)
    (subtitleArg : Option FPath) (output_path : FPath) : List String :=
  [cfg.ffmpegPath, "-y", "-f", "concat", "-safe", "0", "-i", concat_file,
    "-i", final_audio_path] ++
  (match subtitleArg with
   | some sp => subtitle_filter_args cfg sp
   | none => ["-c:v", "copy"]) ++
  ["-c:a", "aac", "-b:a", "128k", "-ar", "44100", "-shortest", output_path]

/-- The command `_combine_videos` hands to the encoder, as a function of
the state at entry (the concat manifest is written before the subtitle
guard is evaluated). -/
def combine_invocation (cfg : Config) (st : RunState) (final_audio_path : FPath)
    (subtitle_path : Option FPath) : List String :=
  combine_cmd cfg (concatName cfg) final_audio_path
    (activeSubtitle (st.files ++ [concatName cfg]) subtitle_path) (videoName cfg)

/-- `_combine_videos` (lines 196-274): write the concat manifest, run
the encoder; on success the final video exists, the manifest is
unlinked and the output path returned; on failure a `RuntimeError`
propagates, the manifest staying on disk and this function deleting
nothing. -/
def combine_videos (cfg : Config) (st : RunState) (video_files : List FPath)
    (final_audio_path : FPath) (subtitle_path : Option FPath) :
    Except (PyError × RunState) (RunState × FPath) :=
  let output_path := videoName cfg
  let concat_file := concatName cfg
  let files1 := st.files ++ [concat_file]
  let cmd := combine_cmd cfg concat_file final_audio_path
    (activeSubtitle files1 subtitle_path) output_path
  let calls1 := st.encCalls ++ [cmd]
  if cfg.encOk cmd then
    .ok (⟨removeFile (files1 ++ [output_path]) concat_file, st.warnings, calls1⟩,
      output_path)
  else
    .error (PyError.runtimeError "Failed to combine videos",
      ⟨files1, st.warnings, calls1⟩)

/-- The batch start offsets `range(0, len(images), self.batch_size)`
(line 297): `0, bs, 2*bs, ...`, of length `⌈n / bs⌉ = (n + bs - 1) / bs`. -/
def batchStarts (n bs : ℕ) : List ℕ := List.range' 0 ((n + bs - 1) / bs) bs

/-- The batch loop of `_create_bedtime_video` (lines 295-315): slice the
scene list, render each batch, accumulate the clip paths in
`intermediate_videos`; if a batch fails, delete every clip accumulated
so far and re-raise. -/
def assemble_batches (cfg : Config) (images : List Image) (scene_durations : List ℚ) :
    List ℕ → RunState → List FPath → Except (PyError × RunState) (RunState × List FPath)
  | [], st, acc => .ok (st, acc)
  | i :: rest, st, acc =>
    match create_intermediate_video cfg st ((images.drop i).take cfg.batch_size)
        ((scene_durations.drop i).take cfg.batch_size) (i / cfg.batch_size + 1) with
    | .ok (st1, p) => assemble_batches cfg images scene_durations rest st1 (acc ++ [p])
    | .error (e, st1) =>
        .error (e, { st1 with files := cleanupClips st1.files acc })

/-- `_create_bedtime_video` (lines 276-337): render all batches, then
combine; on success delete the intermediate clips and return the final
path; if the combine step raises, delete the intermediate clips and
re-raise (lines 331-337). -/
def create_bedtime_video (cfg : Config) (st : RunState) (images : List Image)
    (scene_durations : List ℚ) (final_audio_path : FPath)
    (subtitle_path : Option FPath) : Except (PyError × RunState) (RunState × FPath) :=
  match assemble_batches cfg images scene_durations
      (batchStarts images.length cfg.batch_size) st [] with
  | .error es => .error es
  | .ok (st1, intermediate_videos) =>
    match combine_videos cfg st1 intermediate_videos final_audio_path subtitle_path with
    | .ok (st2, final_video) =>
        .ok ({ st2 with files := cleanupClips st2.files intermediate_videos },
          final_video)
    | .error (e, st2) =>
        .error (e, { st2 with files := cleanupClips st2.files intermediate_videos })

/-- `process_bedtime_video` (lines 365-437): validate the inputs (count
match, image files, audio file), degrade a missing subtitle path to
`None` with a warning, then build the video.  The metadata dictionary
derived from the result is not modelled; the returned value is the final
video path. -/
def process_bedtime_video (cfg : Config) (st : RunState) (images : List Image)
    (scene_durations : List ℚ) (final_audio_path : FPath)
    (subtitle_path : Option FPath) : Except (PyError × RunState) (RunState × FPath) :=
  if images.length ≠ scene_durations.length then
    .error (PyError.valueError "Number of images must match number of scene durations", st)
  else
    match images.find? (fun image => !(fsHas st.files image.image_path)) with
    | some image =>
        .error (PyError.fileNotFoundError ("Image file not found: " ++ image.image_path), st)
    | none =>
      if fsHas st.files final_audio_path then
        let stSub : RunState × Option FPath :=
          match subtitle_path with
          | some sp =>
              if fsHas st.files sp then (st, some sp)
              else ({ st with warnings := st.warnings ++
                      ["Subtitle file not found: " ++ sp] }, none)
          | none => (st, none)
        create_bedtime_video cfg stSub.1 images scene_durations final_audio_path stSub.2
      else
        .error (PyError.fileNotFoundError ("Audio file not found: " ++ final_audio_path), st)

/-- Value of a successful run. -/
def okVal {α : Type} : Except (PyError × RunState) (RunState × α) → Option α
  | .ok (_, v) => some v
  | .error _ => none

/-- Filesystem after a successful run. -/
def okFiles {α : Type} : Except (PyError × RunState) (RunState × α) → Option (List FPath)
  | .ok (st, _) => some st.files
  | .error _ => none

/-- Filesystem at the moment an error propagates. -/
def errorFiles {α : Type} : Except (PyError × RunState) α → Option (List FPath)
  | .error (_, st) => some st.files
  | .ok _ => none

/-- The error of a failed run. -/
def errorOf {α : Type} : Except (PyError × RunState) α → Option PyError
  | .error (e, _) => some e
  | .ok _ => none

/-- Encoder commands issued during a run, successful or not. -/
def callsOf {α : Type} : Except (PyError × RunState) (RunState × α) → List (List String)
  | .ok (st, _) => st.encCalls
  | .error (_, st) => st.encCalls

/-- The 1-based batch numbers and scene slices induced by the loop of
`_create_bedtime_video` (lines 297-300). -/
def sceneBatches (cfg : Config) (images : List Image) : List (ℕ × List Image) :=
  (batchStarts images.length cfg.batch_size).map
    (fun i => (i / cfg.batch_size + 1, (images.drop i).take cfg.batch_size))

/-- Fixture: a filesystem holding two scene images, the narration audio
and a subtitle file. -/
def exState : RunState := ⟨["img1.png", "img2.png", "audio.wav", "subs.srt"], [], []⟩

/-- Fixture: the corresponding image records. -/
def exImages : List Image := [⟨"img1.png"⟩, ⟨"img2.png"⟩]

/-- Fixture: per-scene durations in seconds. -/
def exDurs : List ℚ := [2, 3]

/-- Fixture: configuration whose encoder always succeeds. -/
def cfgOk : Config := ⟨"out", 20, false, "ffmpeg", "T", fun _ => true⟩

/-- Fixture: configuration whose encoder always fails. -/
def cfgFail : Config := ⟨"out", 20, false, "ffmpeg", "T", fun _ => false⟩

/-- Fixture: configuration whose encoder succeeds on batch renders but
fails on the final concat/mux command (recognised by its `-f concat`
prefix). -/
def cfgMuxFail : Config :=
  ⟨"out", 20, false, "ffmpeg", "T", fun cmd => cmd.getD 2 "" != "-f"⟩

/-! ### Basic lemmas about the filesystem model -/

theorem mem_removeFile {fs : List FPath} {p q : FPath} :
    q ∈ removeFile fs p ↔ q ∈ fs ∧ q ≠ p := by
  simp [removeFile]

theorem cleanupClips_cons (fs : List FPath) (c : FPath) (cs : List FPath) :
    cleanupClips fs (c :: cs) = cleanupClips (removeFile fs c) cs := rfl

theorem mem_cleanupClips :
    ∀ (clips fs : List FPath) (q : FPath),
      q ∈ cleanupClips fs clips ↔ q ∈ fs ∧ q ∉ clips
  | [], fs, q => by simp [cleanupClips]
  | c :: cs, fs, q => by
      rw [cleanupClips_cons, mem_cleanupClips cs, mem_removeFile]
      simp only [List.mem_cons]
      tauto

theorem fsHas_iff {fs : List FPath} {p : FPath} : fsHas fs p = true ↔ p ∈ fs := by
  simp [fsHas]

/-- Unfolding of `create_intermediate_video` into its two outcomes. -/
theorem create_intermediate_video_eq (cfg : Config) (st : RunState)
    (images : List Image) (durs : List ℚ) (b : ℕ) :
    create_intermediate_video cfg st images durs b =
      if cfg.encOk (intermediate_cmd cfg images durs (clipName cfg b)) then
        .ok ((⟨st.files ++ [clipName cfg b], st.warnings,
          st.encCalls ++ [intermediate_cmd cfg images durs (clipName cfg b)]⟩ : RunState),
          clipName cfg b)
      else
        .error (PyError.runtimeError "Failed to create intermediate video",
          ⟨st.files, st.warnings,
            st.encCalls ++ [intermediate_cmd cfg images durs (clipName cfg b)]⟩) := rfl

/-- Unfolding of `combine_videos` into its two outcomes. -/
theorem combine_videos_eq (cfg : Config) (st : RunState) (vf : List FPath)
    (audio : FPath) (sub : Option FPath) :
    combine_videos cfg st vf audio sub =
      if cfg.encOk (combine_invocation cfg st audio sub) then
        .ok ((⟨removeFile ((st.files ++ [concatName cfg]) ++ [videoName cfg]) (concatName cfg),
          st.warnings, st.encCalls ++ [combine_invocation cfg st audio sub]⟩ : RunState),
          videoName cfg)
      else
        .error (PyError.runtimeError "Failed to combine videos",
          ⟨st.files ++ [concatName cfg], st.warnings,
            st.encCalls ++ [combine_invocation cfg st audio sub]⟩) := rfl

/-! ### Claim C5: fade windows -/

/-- Claim C5: for every scene of duration `d`, the fade duration equals
`min(0.5, d/4)`; it is strictly positive whenever `d > 0`; the fade-in
starts at time 0 and the fade-out at `d` minus the fade duration, so the
fade-in window `[0, fade]` ends no later than the fade-out window
begins — the two windows never overlap. -/
theorem C5_fade_windows (d : ℚ) (hd : 0 < d) :
    fade_duration d = min (1/2) (d / 4) ∧
    0 < fade_duration d ∧
    fade_in_start d = 0 ∧
    fade_out_start d = d - fade_duration d ∧
    fade_in_start d + fade_duration d ≤ fade_out_start d := by
  refine ⟨rfl, lt_min (by norm_num) (by positivity), rfl, rfl, ?_⟩
  have h : fade_duration d ≤ d / 4 := min_le_right _ _
  simp only [fade_in_start, fade_out_start, zero_add]
  linarith

/-- Witness for C5 at the concrete duration 2. -/
theorem C5_witness :
    0 < (2 : ℚ) ∧
    (fade_duration 2 = min (1/2) (2 / 4) ∧ 0 < fade_duration 2 ∧
      fade_in_start 2 = 0 ∧ fade_out_start 2 = 2 - fade_duration 2 ∧
      fade_in_start 2 + fade_duration 2 ≤ fade_out_start 2) :=
  ⟨by norm_num, C5_fade_windows 2 (by norm_num)⟩

/-! ### Claim C10: concat manifest lifecycle -/

/-- Claim C10: if the final combine/mux encoder invocation fails after
the concat manifest has been written, the manifest is still on disk when
the error propagates out of `_combine_videos`; it is deleted exactly on
the success path. -/
theorem C10_concat_manifest_lifecycle (cfg : Config) (st : RunState)
    (clips : List FPath) (audio : FPath) (sub : Option FPath) :
    (∀ e st', combine_videos cfg st clips audio sub = .error (e, st') →
      concatName cfg ∈ st'.files) ∧
    (∀ st' out, combine_videos cfg st clips audio sub = .ok (st', out) →
      concatName cfg ∉ st'.files) := by
  constructor
  · intro e st' h
    rw [combine_videos_eq] at h
    cases hE : cfg.encOk (combine_invocation cfg st audio sub) <;> rw [hE] at h
    · simp only [Bool.false_eq_true, if_false, Except.error.injEq, Prod.mk.injEq] at h
      rw [← h.2]
      simp
    · simp at h
  · intro st' out h
    rw [combine_videos_eq] at h
    cases hE : cfg.encOk (combine_invocation cfg st audio sub) <;> rw [hE] at h
    · simp at h
    · simp only [if_true, Except.ok.injEq, Prod.mk.injEq] at h
      rw [← h.1]
      simp [mem_removeFile]

/-- Witness for C10: a failing mux run keeps `out/concat_T.txt`; a
successful one removes it. -/
theorem C10_witness :
    "out/concat_T.txt" ∈
      ["img1.png", "img2.png", "audio.wav", "subs.srt", "out/concat_T.txt"] ∧
    "out/concat_T.txt" ∉
      ["img1.png", "img2.png", "audio.wav", "subs.srt", "out/bedtime_video_T.mp4"] := by
  constructor
  · exact (C10_concat_manifest_lifecycle cfgFail exState [] "audio.wav" none).1 _ _ rfl
  · exact (C10_concat_manifest_lifecycle cfgOk exState [] "audio.wav" none).2 _ _ rfl

/-! ### Claim C9: re-encode iff an existing subtitle file is supplied -/

/-- Claim C9: in the command `_combine_videos` hands to the encoder, the
arguments after the two inputs are `-c:v copy` (the video stream is
stream-copied, no re-encoding) exactly when no existing subtitle file is
supplied; when the subtitle path is supplied and exists, they are the
subtitle burn-in filter followed by an encoder video codec
(re-encoding). -/
theorem C9_reencode_iff_subtitles (cfg : Config) (st : RunState)
    (audio : FPath) (sub : Option FPath) :
    (((combine_invocation cfg st audio sub).drop 10).take 2 = ["-c:v", "copy"] ↔
      ∀ sp, sub = some sp → sp ∉ st.files ++ [concatName cfg]) ∧
    (∀ sp, sub = some sp → sp ∈ st.files ++ [concatName cfg] →
      (combine_invocation cfg st audio sub).drop 10 =
        subtitle_filter_args cfg sp ++
          ["-c:a", "aac", "-b:a", "128k", "-ar", "44100", "-shortest", videoName cfg]) := by
  cases sub with
  | none =>
      constructor
      · simp [combine_invocation, combine_cmd, activeSubtitle]
      · intro sp h
        exact absurd h (by simp)
  | some sp =>
      cases hsp : fsHas (st.files ++ [concatName cfg]) sp with
      | false =>
          have hmem : sp ∉ st.files ++ [concatName cfg] := by
            rw [← fsHas_iff]
            simp [hsp]
          constructor
          · simp only [combine_invocation, combine_cmd, activeSubtitle, hsp,
              Bool.false_eq_true, if_false]
            simp only [List.drop_append_of_le_length, List.append_assoc]
            constructor
            · intro _ sq hq
              injection hq with hq
              rw [← hq]
              exact hmem
            · intro _
              rfl
          · intro sq hq hq2
            injection hq with hq
            rw [← hq] at hq2
            exact absurd hq2 hmem
      | true =>
          have hmem : sp ∈ st.files ++ [concatName cfg] := fsHas_iff.mp hsp
          constructor
          · simp only [combine_invocation, combine_cmd, activeSubtitle, hsp, if_true]
            constructor
            · intro h
              exact absurd h (by simp [subtitle_filter_args])
            · intro h
              exact absurd (h sp rfl) (by simp [hmem])
          · intro sq hq _
            injection hq with hq
            subst hq
            simp [combine_invocation, combine_cmd, activeSubtitle, hsp]

/-- Witness for C9: with an existing subtitle file the tail of the mux
command is the burn-in filter plus encoder settings; with none it is a
stream copy. -/
theorem C9_witness :
    (combine_invocation cfgOk exState "audio.wav" (some "subs.srt")).drop 10 =
      subtitle_filter_args cfgOk "subs.srt" ++
        ["-c:a", "aac", "-b:a", "128k", "-ar", "44100", "-shortest", videoName cfgOk] ∧
    ((combine_invocation cfgOk exState "audio.wav" none).drop 10).take 2 =
      ["-c:v", "copy"] := by
  constructor
  · exact (C9_reencode_iff_subtitles cfgOk exState "audio.wav" (some "subs.srt")).2
      "subs.srt" rfl (by decide)
  · exact (C9_reencode_iff_subtitles cfgOk exState "audio.wav" none).1.mpr
      (by intro sp h; exact absurd h (by simp))

/-! ### Claim C8: a missing subtitle path degrades to no subtitles -/

/-- Claim C8: running the combine step with a subtitle path that does
not exist on disk yields exactly the same result (same final video
path, same recorded encoder command, same filesystem) as running it
with no subtitle path; and at the entry point the only further
difference is the warning logged before the video is built. -/
theorem C8_missing_subtitle_equiv (cfg : Config) (st : RunState)
    (clips : List FPath) (images : List Image) (durs : List ℚ)
    (audio sp : FPath)
    (h1 : sp ∉ st.files) (h2 : sp ≠ concatName cfg)
    (h3 : images.length = durs.length)
    (h4 : ∀ img ∈ images, img.image_path ∈ st.files)
    (h5 : audio ∈ st.files) :
    combine_videos cfg st clips audio (some sp) =
      combine_videos cfg st clips audio none ∧
    process_bedtime_video cfg st images durs audio (some sp) =
      process_bedtime_video cfg
        { st with warnings := st.warnings ++ ["Subtitle file not found: " ++ sp] }
        images durs audio none := by
  have hsub : activeSubtitle (st.files ++ [concatName cfg]) (some sp) = none := by
    have : fsHas (st.files ++ [concatName cfg]) sp = false := by
      rw [← Bool.not_eq_true, fsHas_iff]
      simp [h1, h2]
    simp [activeSubtitle, this]
  constructor
  · rw [combine_videos_eq, combine_videos_eq]
    simp only [combine_invocation, hsub]
    rfl
  · have hfind : images.find? (fun im => !(fsHas st.files im.image_path)) = none := by
      rw [List.find?_eq_none]
      intro x hx
      simp [fsHas_iff.mpr (h4 x hx)]
    have ha : fsHas st.files audio = true := fsHas_iff.mpr h5
    have hs : fsHas st.files sp = false := by
      rw [← Bool.not_eq_true, fsHas_iff]
      exact h1
    simp only [process_bedtime_video, h3, ne_eq, not_true_eq_false, if_false, hfind,
      ha, if_true, hs, Bool.false_eq_true]

/-- Witness for C8 with the subtitle path `missing.srt`, absent from the
fixture filesystem. -/
theorem C8_witness :
    combine_videos cfgOk exState ["out/intermediate_1.mp4"] "audio.wav" (some "missing.srt") =
      combine_videos cfgOk exState ["out/intermediate_1.mp4"] "audio.wav" none ∧
    process_bedtime_video cfgOk exState exImages exDurs "audio.wav" (some "missing.srt") =
      process_bedtime_video cfgOk
        { exState with warnings := exState.warnings ++
            ["Subtitle file not found: " ++ "missing.srt"] }
        exImages exDurs "audio.wav" none :=
  C8_missing_subtitle_equiv cfgOk exState ["out/intermediate_1.mp4"] exImages exDurs
    "audio.wav" "missing.srt" (by decide) (by decide) rfl (by decide) (by decide)

/-! ### Claim C6: validation precedes any encoder invocation -/

/-- Claim C6: `process_bedtime_video` validates its inputs before doing
any work.  On a scene/duration count mismatch, a missing image file, or
a missing audio file, it raises the corresponding error with the state
returned exactly as it was: no encoder command recorded and no file
created or deleted. -/
theorem C6_validation_first (cfg : Config) (st : RunState) (images : List Image)
    (durs : List ℚ) (audio : FPath) (sub : Option FPath) :
    (images.length ≠ durs.length →
      process_bedtime_video cfg st images durs audio sub =
        .error (PyError.valueError
          "Number of images must match number of scene durations", st)) ∧
    (∀ img, images.length = durs.length →
      images.find? (fun im => !(fsHas st.files im.image_path)) = some img →
      process_bedtime_video cfg st images durs audio sub =
        .error (PyError.fileNotFoundError
          ("Image file not found: " ++ img.image_path), st)) ∧
    (images.length = durs.length →
      images.find? (fun im => !(fsHas st.files im.image_path)) = none →
      fsHas st.files audio = false →
      process_bedtime_video cfg st images durs audio sub =
        .error (PyError.fileNotFoundError ("Audio file not found: " ++ audio), st)) := by
  refine ⟨?_, ?_, ?_⟩
  · intro h
    simp [process_bedtime_video, h]
  · intro img hlen hfind
    simp [process_bedtime_video, hlen, hfind]
  · intro hlen hfind haud
    simp [process_bedtime_video, hlen, hfind, haud]

/-- Witness for C6: the three validation failures at concrete inputs. -/
theorem C6_witness :
    process_bedtime_video cfgOk exState exImages [2] "audio.wav" none =
      .error (PyError.valueError
        "Number of images must match number of scene durations", exState) ∧
    process_bedtime_video cfgOk exState [⟨"ghost.png"⟩] [2] "audio.wav" none =
      .error (PyError.fileNotFoundError "Image file not found: ghost.png", exState) ∧
    process_bedtime_video cfgOk exState exImages exDurs "nope.wav" none =
      .error (PyError.fileNotFoundError "Audio file not found: nope.wav", exState) := by
  refine ⟨?_, ?_, ?_⟩
  · exact (C6_validation_first cfgOk exState exImages [2] "audio.wav" none).1 (by decide)
  · exact (C6_validation_first cfgOk exState [⟨"ghost.png"⟩] [2] "audio.wav" none).2.1
      ⟨"ghost.png"⟩ rfl (by decide)
  · exact (C6_validation_first cfgOk exState exImages exDurs "nope.wav" none).2.2
      rfl (by decide) (by decide)

/-! ### Claim C3 (corrected): zero scenes do not fail fast -/

/-- Counterexample to claim C3 as stated: with zero scenes and an
existing audio file the pipeline does not raise a validation error — it
reaches the combine step, invokes the external encoder once on an empty
concat manifest, and the error it eventually reports (here: the mux
invocation failing) is a `RuntimeError`, not a `ValueError`. -/
theorem C3_counterexample :
    errorOf (process_bedtime_video cfgFail exState [] [] "audio.wav" none) =
      some (PyError.runtimeError "Failed to combine videos") ∧
    callsOf (process_bedtime_video cfgFail exState [] [] "audio.wav" none) =
      [["ffmpeg", "-y", "-f", "concat", "-safe", "0", "-i", "out/concat_T.txt",
        "-i", "audio.wav", "-c:v", "copy", "-c:a", "aac", "-b:a", "128k",
        "-ar", "44100", "-shortest", "out/bedtime_video_T.mp4"]] :=
  ⟨rfl, rfl⟩

/-- Claim C3 (amended): called with zero scenes and an existing audio
file, validation passes (0 images match 0 durations), no batch is
rendered, and the run reduces exactly to the combine step — which does
invoke the external encoder.  No `ValueError` is ever raised for the
empty input. -/
theorem C3_zero_scenes_reaches_combine (cfg : Config) (st : RunState) (audio : FPath)
    (h : audio ∈ st.files) :
    process_bedtime_video cfg st [] [] audio none =
      combine_videos cfg st [] audio none := by
  have ha : fsHas st.files audio = true := fsHas_iff.mpr h
  have hstarts : batchStarts 0 cfg.batch_size = [] := by
    have hd : (cfg.batch_size - 1) / cfg.batch_size = 0 := by
      rcases Nat.eq_zero_or_pos cfg.batch_size with h0 | hpos
      · simp [h0]
      · exact Nat.div_eq_of_lt (by omega)
    simp [batchStarts, hd]
  simp only [process_bedtime_video, List.length_nil, ne_eq, not_true_eq_false, if_false,
    List.find?_nil, ha, if_true, create_bedtime_video, hstarts, assemble_batches]
  cases hc : combine_videos cfg st [] audio none with
  | ok p =>
      obtain ⟨st2, v⟩ := p
      simp [cleanupClips]
  | error ep =>
      obtain ⟨e2, st2⟩ := ep
      simp [cleanupClips]

/-- Witness for the amended C3 at the fixture state. -/
theorem C3_witness :
    process_bedtime_video cfgOk exState [] [] "audio.wav" none =
      combine_videos cfgOk exState [] "audio.wav" none :=
  C3_zero_scenes_reaches_combine cfgOk exState "audio.wav" (by decide)

/-! ### Claim C2: batch failure deletes every clip of the attempt -/

/-- Claim C2: if the encoder invocation for any batch fails, the batch loop
deletes every intermediate clip accumulated in `intermediate_videos`
during the same assembly call before re-raising, and the propagated
state contains no file that was not already on disk when the loop was
entered — no intermediate clip of the attempt remains. -/
theorem C2_batch_failure_cleanup (cfg : Config) (images : List Image)
    (durs : List ℚ) :
    ∀ (starts : List ℕ) (st : RunState) (acc : List FPath) {e : PyError}
      {st' : RunState},
      assemble_batches cfg images durs starts st acc = .error (e, st') →
      (∀ p ∈ acc, p ∉ st'.files) ∧ (∀ q ∈ st'.files, q ∈ st.files) := by
  intro starts
  induction starts with
  | nil =>
      intro st acc e st' h
      simp [assemble_batches] at h
  | cons i rest ih =>
      intro st acc e st' h
      rw [assemble_batches, create_intermediate_video_eq] at h
      cases hE : cfg.encOk (intermediate_cmd cfg ((images.drop i).take cfg.batch_size)
          ((durs.drop i).take cfg.batch_size)
          (clipName cfg (i / cfg.batch_size + 1))) <;> rw [hE] at h
      · simp only [Bool.false_eq_true, if_false, Except.error.injEq, Prod.mk.injEq] at h
        obtain ⟨-, hst⟩ := h
        rw [← hst]
        constructor
        · intro p hp hmem
          rw [mem_cleanupClips] at hmem
          exact hmem.2 hp
        · intro q hq
          rw [mem_cleanupClips] at hq
          exact hq.1
      · simp only [if_true] at h
        obtain ⟨ha, hb⟩ := ih _ _ h
        refine ⟨fun p hp => ha p (by simp [hp]), fun q hq => ?_⟩
        have := hb q hq
        simp only [List.mem_append, List.mem_singleton] at this
        rcases this with hin | heq
        · exact hin
        · exact absurd hq (by rw [heq]; exact ha _ (by simp))

/-- Witness for C2: one failing batch; the pre-listed clip
`out/intermediate_7.mp4` in `intermediate_videos` is removed and no new
file remains. -/
theorem C2_witness :
    "out/intermediate_7.mp4" ∉ ["keep.txt"] ∧
    "keep.txt" ∈ ["out/intermediate_7.mp4", "keep.txt"] := by
  have h := C2_batch_failure_cleanup cfgFail [⟨"img1.png"⟩] [1] [0]
    ⟨["out/intermediate_7.mp4", "keep.txt"], [], []⟩ ["out/intermediate_7.mp4"] rfl
  exact ⟨h.1 _ (by decide), h.2 _ (by decide)⟩

/-! ### Claim C1 (corrected): mux failure deletes the clips -/

/-- Counterexample to claim C1 as stated: the assembly creates the
intermediate clip `out/intermediate_1.mp4`, the combine/mux invocation
fails, and the clip is gone from the propagated state — the clips are
not preserved for diagnostics (only the concat manifest survives). -/
theorem C1_counterexample :
    okVal (assemble_batches cfgMuxFail exImages exDurs
      (batchStarts exImages.length cfgMuxFail.batch_size) exState []) =
      some ["out/intermediate_1.mp4"] ∧
    errorFiles (create_bedtime_video cfgMuxFail exState exImages exDurs
      "audio.wav" none) =
      some ["img1.png", "img2.png", "audio.wav", "subs.srt", "out/concat_T.txt"] :=
  ⟨rfl, rfl⟩

/-- Unfolding of `_create_bedtime_video` once the batch loop has
succeeded with clips `cl`. -/
theorem create_bedtime_video_ok_eq (cfg : Config) (st : RunState)
    (images : List Image) (durs : List ℚ) (audio : FPath) (sub : Option FPath)
    (st1 : RunState) (cl : List FPath)
    (ha : assemble_batches cfg images durs
      (batchStarts images.length cfg.batch_size) st [] = .ok (st1, cl)) :
    create_bedtime_video cfg st images durs audio sub =
      match combine_videos cfg st1 cl audio sub with
      | .ok (st2, v) => .ok ({ st2 with files := cleanupClips st2.files cl }, v)
      | .error (e, st2) =>
          .error (e, { st2 with files := cleanupClips st2.files cl }) := by
  rw [create_bedtime_video, ha]

/-- Claim C1 (amended): if the final combine/mux step fails, every
intermediate clip created by the assembly loop of the same call is
deleted before the error propagates out of `_create_bedtime_video`
(lines 331-337 of the source delete `intermediate_videos` in the
`except` handler) — the clips are not preserved. -/
theorem C1_clips_removed_on_mux_failure (cfg : Config) (st : RunState)
    (images : List Image) (durs : List ℚ) (audio : FPath) (sub : Option FPath)
    (clips : List FPath)
    (h1 : okVal (assemble_batches cfg images durs
      (batchStarts images.length cfg.batch_size) st []) = some clips)
    {e : PyError} {st' : RunState}
    (h2 : create_bedtime_video cfg st images durs audio sub = .error (e, st')) :
    ∀ p ∈ clips, p ∉ st'.files := by
  cases ha : assemble_batches cfg images durs
      (batchStarts images.length cfg.batch_size) st [] with
  | error es =>
      rw [ha] at h1
      simp [okVal] at h1
  | ok pair =>
      obtain ⟨st1, cl⟩ := pair
      rw [ha] at h1
      simp only [okVal, Option.some.injEq] at h1
      subst h1
      rw [create_bedtime_video_ok_eq cfg st images durs audio sub st1 cl ha] at h2
      cases hc : combine_videos cfg st1 cl audio sub with
      | ok p2 =>
          obtain ⟨st2, v⟩ := p2
          rw [hc] at h2
          simp at h2
      | error ep =>
          obtain ⟨e2, st2⟩ := ep
          rw [hc] at h2
          simp only [Except.error.injEq, Prod.mk.injEq] at h2
          obtain ⟨-, hst⟩ := h2
          rw [← hst]
          intro p hp hmem
          rw [mem_cleanupClips] at hmem
          exact hmem.2 hp

/-- Witness for the amended C1 at the fixture run whose mux fails. -/
theorem C1_witness :
    "out/intermediate_1.mp4" ∉
      ["img1.png", "img2.png", "audio.wav", "subs.srt", "out/concat_T.txt"] := by
  exact C1_clips_removed_on_mux_failure cfgMuxFail exState exImages exDurs
    "audio.wav" none ["out/intermediate_1.mp4"] rfl rfl _ (by simp)

/-! ### Claim C7: success-path cleanup -/

/-- A successful batch loop only appends files: the new files are
exactly the clips it returns beyond the accumulator. -/
theorem assemble_ok_new_files (cfg : Config) (images : List Image) (durs : List ℚ) :
    ∀ (starts : List ℕ) (st : RunState) (acc : List FPath) {st1 : RunState}
      {cl : List FPath},
      assemble_batches cfg images durs starts st acc = .ok (st1, cl) →
      ∃ newClips, st1.files = st.files ++ newClips ∧ cl = acc ++ newClips := by
  intro starts
  induction starts with
  | nil =>
      intro st acc st1 cl h
      simp only [assemble_batches, Except.ok.injEq, Prod.mk.injEq] at h
      obtain ⟨h1, h2⟩ := h
      exact ⟨[], by simp [← h1], by simp [← h2]⟩
  | cons i rest ih =>
      intro st acc st1 cl h
      rw [assemble_batches, create_intermediate_video_eq] at h
      cases hE : cfg.encOk (intermediate_cmd cfg ((images.drop i).take cfg.batch_size)
          ((durs.drop i).take cfg.batch_size)
          (clipName cfg (i / cfg.batch_size + 1))) <;> rw [hE] at h
      · simp at h
      · simp only [if_true] at h
        obtain ⟨new2, hf, hc⟩ := ih _ _ h
        refine ⟨clipName cfg (i / cfg.batch_size + 1) :: new2, ?_, ?_⟩
        · rw [hf]
          simp
        · rw [hc]
          simp

/-- Claim C7: when the combine/mux step succeeds, `_create_bedtime_video`
deletes every intermediate clip and `_combine_videos` has already deleted
the concat manifest; the final video is on disk and is the returned
path; the audio file and the subtitle file (having distinct paths from
the component-owned files, as the naming scheme guarantees) are left
untouched. -/
theorem C7_success_cleanup (cfg : Config) (st : RunState) (images : List Image)
    (durs : List ℚ) (audio : FPath) (sub : Option FPath) (clips : List FPath)
    (h1 : okVal (assemble_batches cfg images durs
      (batchStarts images.length cfg.batch_size) st []) = some clips)
    {st' : RunState} {out : FPath}
    (h2 : create_bedtime_video cfg st images durs audio sub = .ok (st', out))
    (hvc : videoName cfg ≠ concatName cfg)
    (hvclips : videoName cfg ∉ clips)
    (haud1 : audio ∉ clips) (haud2 : audio ≠ concatName cfg) :
    (∀ p ∈ clips, p ∉ st'.files) ∧
    concatName cfg ∉ st'.files ∧
    out = videoName cfg ∧
    out ∈ st'.files ∧
    (audio ∈ st.files → audio ∈ st'.files) ∧
    (∀ sp, sub = some sp → sp ∉ clips → sp ≠ concatName cfg →
      sp ∈ st.files → sp ∈ st'.files) := by
  cases ha : assemble_batches cfg images durs
      (batchStarts images.length cfg.batch_size) st [] with
  | error es =>
      rw [ha] at h1
      simp [okVal] at h1
  | ok pair =>
      obtain ⟨st1, cl⟩ := pair
      rw [ha] at h1
      simp only [okVal, Option.some.injEq] at h1
      subst h1
      obtain ⟨newC, hfiles, hcl⟩ := assemble_ok_new_files cfg images durs _ st [] ha
      simp only [List.nil_append] at hcl
      subst hcl
      rw [create_bedtime_video_ok_eq cfg st images durs audio sub st1 cl ha] at h2
      cases hc : combine_videos cfg st1 cl audio sub with
      | error ep =>
          rw [hc] at h2
          obtain ⟨e2, st2⟩ := ep
          simp at h2
      | ok p2 =>
          obtain ⟨st2, v⟩ := p2
          rw [hc] at h2
          simp only [Except.ok.injEq, Prod.mk.injEq] at h2
          obtain ⟨hst, hout⟩ := h2
          rw [combine_videos_eq] at hc
          cases hE : cfg.encOk (combine_invocation cfg st1 audio sub) <;> rw [hE] at hc
          · simp at hc
          · simp only [if_true, Except.ok.injEq, Prod.mk.injEq] at hc
            obtain ⟨hst2, hv⟩ := hc
            have hstf : st'.files =
                cleanupClips (removeFile ((st.files ++ cl) ++ [concatName cfg]
                  ++ [videoName cfg]) (concatName cfg)) cl := by
              rw [← hst, ← hst2]
              simp [hfiles]
            have hmemf : ∀ q, q ∈ st'.files ↔
                ((q ∈ st.files ∨ q ∈ cl ∨ q = concatName cfg ∨ q = videoName cfg) ∧
                  q ≠ concatName cfg) ∧ q ∉ cl := by
              intro q
              rw [hstf, mem_cleanupClips, mem_removeFile]
              simp [or_assoc]
            have hov : out = videoName cfg := by rw [← hout, ← hv]
            refine ⟨?_, ?_, hov, ?_, ?_, ?_⟩
            · intro p hp hmem
              exact ((hmemf p).mp hmem).2 hp
            · intro hmem
              exact ((hmemf _).mp hmem).1.2 rfl
            · rw [hov, hmemf]
              exact ⟨⟨by simp, hvc⟩, hvclips⟩
            · intro hain
              rw [hmemf]
              exact ⟨⟨Or.inl hain, haud2⟩, haud1⟩
            · intro sp hsp hsp1 hsp2 hsp3
              rw [hmemf]
              exact ⟨⟨Or.inl hsp3, hsp2⟩, hsp1⟩

/-- Witness for C7 at the fixture run (subtitles present, all encoder
invocations succeed). -/
theorem C7_witness :
    "out/intermediate_1.mp4" ∉
      ["img1.png", "img2.png", "audio.wav", "subs.srt", "out/bedtime_video_T.mp4"] ∧
    "out/concat_T.txt" ∉
      ["img1.png", "img2.png", "audio.wav", "subs.srt", "out/bedtime_video_T.mp4"] ∧
    "out/bedtime_video_T.mp4" ∈
      ["img1.png", "img2.png", "audio.wav", "subs.srt", "out/bedtime_video_T.mp4"] ∧
    "audio.wav" ∈
      ["img1.png", "img2.png", "audio.wav", "subs.srt", "out/bedtime_video_T.mp4"] ∧
    "subs.srt" ∈
      ["img1.png", "img2.png", "audio.wav", "subs.srt", "out/bedtime_video_T.mp4"] := by
  have h := C7_success_cleanup cfgOk exState exImages exDurs "audio.wav"
    (some "subs.srt") ["out/intermediate_1.mp4"] rfl rfl (by decide) (by decide)
    (by decide) (by decide)
  exact ⟨h.1 _ (by decide), h.2.1, h.2.2.2.1, h.2.2.2.2.1 (by decide),
    h.2.2.2.2.2 "subs.srt" rfl (by decide) (by decide) (by decide)⟩

/-! ### Claim C4: the batch partition -/

/-- Ceiling division written as the batch loop computes it, for one
step of peeling. -/
theorem ceil_div_succ (n s : ℕ) (hn : 0 < n) (hs : 0 < s) :
    (n + s - 1) / s = (n - 1) / s + 1 := by
  have h : n + s - 1 = (n - 1) + s := by omega
  rw [h, Nat.add_div_right _ hs]

/-- `⌈n / s⌉ * s` covers `n`. -/
theorem le_ceil_mul (n s : ℕ) (hs : 0 < s) : n ≤ ((n + s - 1) / s) * s := by
  rcases Nat.eq_zero_or_pos n with h0 | hn
  · simp [h0]
  · rw [ceil_div_succ n s hn hs, Nat.succ_mul, mul_comm ((n - 1) / s) s]
    have h1 := Nat.div_add_mod (n - 1) s
    have h2 := Nat.mod_lt (n - 1) hs
    generalize hq : (n - 1) / s = q at h1 ⊢
    generalize hm : s * q = m at h1 ⊢
    generalize hr : (n - 1) % s = r at h1 h2
    omega

/-- `range'` with stride `s` is a stretched `range`. -/
theorem range'_eq_map (s : ℕ) :
    ∀ (k a : ℕ), List.range' a k s = (List.range k).map (fun j => a + s * j) := by
  intro k
  induction k with
  | zero => intro a; simp
  | succ k ih =>
      intro a
      rw [List.range'_succ, List.range_succ_eq_map, List.map_cons, ih (a + s),
        List.map_map]
      congr 1
      apply List.map_congr_left
      intro j hj
      simp only [Function.comp_apply, Nat.succ_eq_add_one]
      ring

/-- The slices cut at the batch start offsets flatten to a prefix of the
sliced list. -/
theorem slices_flatten {α : Type} (s : ℕ) :
    ∀ (k a : ℕ) (l : List α),
      ((List.range' a k s).map (fun i => (l.drop i).take s)).flatten =
        (l.drop a).take (k * s) := by
  intro k
  induction k with
  | zero => intro a l; simp
  | succ k ih =>
      intro a l
      rw [List.range'_succ, List.map_cons, List.flatten_cons, ih (a + s) l]
      rw [show (k + 1) * s = s + k * s by ring, List.take_add, List.drop_drop]

/-- Every batch start offset lies inside the scene list. -/
theorem batchStarts_mem_lt (n s : ℕ) (hs : 0 < s) (hn : 0 < n) :
    ∀ i ∈ batchStarts n s, i < n := by
  intro i hi
  rw [batchStarts, List.mem_range'] at hi
  obtain ⟨j, hj, rfl⟩ := hi
  rw [ceil_div_succ n s hn hs] at hj
  have hj' : j ≤ (n - 1) / s := by omega
  have h1 : s * j ≤ s * ((n - 1) / s) := Nat.mul_le_mul_left s hj'
  have h2 : s * ((n - 1) / s) ≤ n - 1 := by
    rw [mul_comm]
    exact Nat.div_mul_le_self (n - 1) s
  generalize hx : s * j = x at h1 ⊢
  generalize hy : s * ((n - 1) / s) = y at h1 h2
  omega

/-- When every encoder invocation succeeds, the batch loop returns one
clip per batch start, named by the 1-based batch number. -/
theorem assemble_ok_all (cfg : Config) (images : List Image) (durs : List ℚ)
    (hok : ∀ c, cfg.encOk c = true) :
    ∀ (starts : List ℕ) (st : RunState) (acc : List FPath),
      okVal (assemble_batches cfg images durs starts st acc) =
        some (acc ++ starts.map (fun i => clipName cfg (i / cfg.batch_size + 1))) := by
  intro starts
  induction starts with
  | nil => intro st acc; simp [assemble_batches, okVal]
  | cons i rest ih =>
      intro st acc
      simp only [assemble_batches, create_intermediate_video_eq, hok, if_true]
      rw [ih]
      simp

/-- Claim C4: for a non-empty scene list with matching durations and a
positive batch size, the loop of `_create_bedtime_video` partitions the
scenes into `⌈n / batch_size⌉ = (n + batch_size - 1) / batch_size`
contiguous non-overlapping batches in input order (flattening the
batches gives back the scene list), each non-empty and of size at most
`batch_size`, carrying the 1-based batch numbers `1, 2, ...` in
ascending order; and (encoder succeeding) the loop produces exactly one
intermediate clip per batch, named by those batch numbers in ascending
order. -/
theorem C4_batch_partition (cfg : Config) (images : List Image) (durs : List ℚ)
    (st : RunState) (hbs : 0 < cfg.batch_size) (hne : images ≠ [])
    (hok : ∀ c, cfg.encOk c = true) :
    (sceneBatches cfg images).length =
      (images.length + cfg.batch_size - 1) / cfg.batch_size ∧
    ((sceneBatches cfg images).map Prod.snd).flatten = images ∧
    (∀ b ∈ sceneBatches cfg images,
      (Prod.snd b).length ≤ cfg.batch_size ∧ Prod.snd b ≠ []) ∧
    (sceneBatches cfg images).map Prod.fst =
      List.range' 1 ((images.length + cfg.batch_size - 1) / cfg.batch_size) 1 ∧
    okVal (assemble_batches cfg images durs
        (batchStarts images.length cfg.batch_size) st []) =
      some ((List.range' 1
        ((images.length + cfg.batch_size - 1) / cfg.batch_size) 1).map
          (fun b => clipName cfg b)) := by
  have hn : 0 < images.length := List.length_pos.mpr hne
  have hidx : (batchStarts images.length cfg.batch_size).map
      (fun i => i / cfg.batch_size + 1) =
      List.range' 1 ((images.length + cfg.batch_size - 1) / cfg.batch_size) 1 := by
    rw [batchStarts, range'_eq_map cfg.batch_size, range'_eq_map 1, List.map_map]
    apply List.map_congr_left
    intro j hj
    simp only [Function.comp_apply]
    rw [Nat.zero_add, Nat.mul_div_cancel_left j hbs]
    omega
  refine ⟨?_, ?_, ?_, ?_, ?_⟩
  · simp [sceneBatches, batchStarts]
  · rw [sceneBatches, List.map_map]
    show ((batchStarts images.length cfg.batch_size).map
      (fun i => (images.drop i).take cfg.batch_size)).flatten = images
    rw [batchStarts, slices_flatten cfg.batch_size]
    simp only [List.drop_zero]
    exact List.take_of_length_le (le_ceil_mul images.length cfg.batch_size hbs)
  · intro b hb
    rw [sceneBatches, List.mem_map] at hb
    obtain ⟨i, hi, rfl⟩ := hb
    have hlt : i < images.length := batchStarts_mem_lt _ _ hbs hn i hi
    constructor
    · simp [List.length_take]
    · have hlen : 0 < ((images.drop i).take cfg.batch_size).length := by
        simp only [List.length_take, List.length_drop]
        omega
      exact List.length_pos.mp hlen
  · rw [sceneBatches, List.map_map]
    show (batchStarts images.length cfg.batch_size).map
      (fun i => i / cfg.batch_size + 1) =
      List.range' 1 ((images.length + cfg.batch_size - 1) / cfg.batch_size) 1
    exact hidx
  · rw [assemble_ok_all cfg images durs hok, List.nil_append, ← hidx, List.map_map]
    rfl

/-- Witness for C4 at the fixture: two scenes, batch size 20, one batch. -/
theorem C4_witness :
    (sceneBatches cfgOk exImages).length =
      (exImages.length + cfgOk.batch_size - 1) / cfgOk.batch_size ∧
    ((sceneBatches cfgOk exImages).map Prod.snd).flatten = exImages ∧
    (Prod.snd ((1 : ℕ), exImages)).length ≤ cfgOk.batch_size ∧
    Prod.snd ((1 : ℕ), exImages) ≠ [] ∧
    (sceneBatches cfgOk exImages).map Prod.fst =
      List.range' 1 ((exImages.length + cfgOk.batch_size - 1) / cfgOk.batch_size) 1 ∧
    okVal (assemble_batches cfgOk exImages exDurs
        (batchStarts exImages.length cfgOk.batch_size) exState []) =
      some ((List.range' 1
        ((exImages.length + cfgOk.batch_size - 1) / cfgOk.batch_size) 1).map
          (fun b => clipName cfgOk b)) := by
  have h := C4_batch_partition cfgOk exImages exDurs exState (by decide) (by decide)
    (fun _ => rfl)
  exact ⟨h.1, h.2.1, (h.2.2.1 (1, exImages) (by decide)).1,
    (h.2.2.1 (1, exImages) (by decide)).2, h.2.2.2.1, h.2.2.2.2⟩
